import Mathlib

/-!
Verification development for the `conference_speech` repository
(a Next.js page in `app/page.tsx` doing live speech recognition,
keyword extraction and summarization).

The relevant code is embedded shallowly: JavaScript strings are modelled as
Lean `String`s (lists of Unicode code points; all characters appearing in the
program are in the BMP, where JS UTF-16 indices coincide with code-point
indices), regex-based string transformations are written as executable
character-list functions, and the React component state is a record
transformed by pure handler functions.

React state semantics are modelled faithfully.  The recognition handlers
(`onresult`, `onerror`, `onend`) are installed once, inside a `useEffect`
whose dependency array is empty, so their closures permanently capture the
state variables of the first render — `isRecording = false`,
`reconnectAttempts = 0` and the initial `lastActivity` — and every direct
read of such a variable inside these handlers sees that captured value
forever.  The captured values appear as an explicit `Captured` record, which
the program instantiates at `cap0`.  By contrast, functional updates
`set...(prev => ...)` receive the live state, and plain `set...(v)` writes
the live state; these are threaded into the successor state.  Handlers
re-created on every render (`summarizeText`, `clearAll`) read current state.
-/

namespace ConfSpeech

/-- Whitespace as matched by the JavaScript regex class `\s` and by
`String.prototype.trim`, restricted to the characters that can occur here
(ASCII whitespace and NBSP). -/
def isWs (c : Char) : Bool :=
  c = ' ' || c = '\t' || c = '\n' || c = '\r' || c = '\x0b' || c = '\x0c' || c = ' '

/-- A JS `\w` word character: `[A-Za-z0-9_]`. -/
def isWordChar (c : Char) : Bool :=
  c.isAlpha || c.isDigit || c = '_'

/-- A Hangul syllable, the range `가-힣` of the source regexes. -/
def isHangul (c : Char) : Bool :=
  '가' ≤ c && c ≤ '힣'

/-- JavaScript `String.prototype.trim` on a character list. -/
def trimWs (l : List Char) : List Char :=
  ((l.dropWhile isWs).reverse.dropWhile isWs).reverse

/-- One pass of `.replace(/\s+/g, " ")`: every maximal whitespace run becomes
a single space.  The boolean records whether the previous character was
whitespace (so the current run has already emitted its space). -/
def collapseWsAux : Bool → List Char → List Char
  | _, [] => []
  | prevWs, c :: cs =>
    if isWs c then
      if prevWs then collapseWsAux true cs else ' ' :: collapseWsAux true cs
    else c :: collapseWsAux false cs

/-- JavaScript `.replace(/\s+/g, " ")`. -/
def collapseWs (l : List Char) : List Char := collapseWsAux false l

/-- The provisional marker `[임시]` as a character list (4 characters). -/
def markerL : List Char := "[임시]".data

/-- Worker for `removeProv`, with explicit fuel so that the recursion is
structural (each step consumes at least one character, so fuel equal to the
length of the list is always enough). -/
def removeProvAux : Nat → List Char → List Char
  | 0, l => l
  | _ + 1, [] => []
  | fuel + 1, c :: cs =>
    if markerL.isPrefixOf (c :: cs) then
      removeProvAux fuel (((c :: cs).drop markerL.length).dropWhile (fun d => !isWs d))
    else c :: removeProvAux fuel cs

/-- JavaScript `.replace(/\[임시\].*?(?=\s|$)/g, "")`: each occurrence of the
marker `[임시]` is removed together with the maximal run of non-whitespace
characters following it (the lazy `.*?` stops at the `(?=\s|$)` lookahead;
every character blocked by `.` — a line terminator — is itself `\s`). -/
def removeProv (l : List Char) : List Char := removeProvAux l.length l

/-- Index of the first occurrence of `pat` as a contiguous sublist of `l`. -/
def firstSubIdx (pat l : List Char) : Option Nat :=
  ((List.range (l.length + 1)).filter (fun i => pat.isPrefixOf (l.drop i))).head?

/-- Index of the last occurrence of `pat` as a contiguous sublist of `l`. -/
def lastSubIdx (pat l : List Char) : Option Nat :=
  ((List.range (l.length + 1)).filter (fun i => pat.isPrefixOf (l.drop i))).getLast?

/-- Number of positions of `l` at which `pat` occurs. -/
def occCount (pat l : List Char) : Nat :=
  ((List.range (l.length + 1)).filter (fun i => pat.isPrefixOf (l.drop i))).length

/-- JavaScript `s.substring(0, s.indexOf(pat))` guarded by `indexOf >= 0`,
i.e. the prefix of `l` before the first occurrence of `pat` (all of `l` when
`pat` does not occur). -/
def cutBeforeFirst (pat l : List Char) : List Char :=
  match firstSubIdx pat l with
  | some i => l.take i
  | none => l

/-- JavaScript `s.substring(0, s.lastIndexOf(pat))` guarded by
`lastIndexOf >= 0`. -/
def cutBeforeLast (pat l : List Char) : List Char :=
  match lastSubIdx pat l with
  | some i => l.take i
  | none => l

/-- JavaScript `pat ∈ s` as in `String.prototype.includes`. -/
def containsSub (pat l : List Char) : Bool :=
  (firstSubIdx pat l).isSome

/-- Character-level split used to model `.split(/\s+/)` on a cleaned text
whose whitespace has already been collapsed to isolated single spaces (so
splitting at each whitespace character agrees with splitting at whitespace
runs), and `.split(/[.!?]+/)` up to empty fragments (which every caller
filters away). `""` splits to `[""]`, as in JavaScript. -/
def splitWhen (p : Char → Bool) : List Char → List (List Char)
  | [] => [[]]
  | c :: cs =>
    if p c then [] :: splitWhen p cs
    else
      match splitWhen p cs with
      | t :: ts => (c :: t) :: ts
      | [] => [[c]]

/-- A sentence terminator of the regex `[.!?]+`. -/
def termChar (c : Char) : Bool := c = '.' || c = '!' || c = '?'

/-! ### Component state and recognition events -/

/-- The `environmentStatus` union type. -/
inductive EnvStatus
  | quiet
  | noisy
  | veryNoisy
  deriving DecidableEq

/-- The React state of the `Home` component in `app/page.tsx`.  Timestamps
and the microphone level are modelled as naturals. -/
structure AppState where
  isRecording : Bool
  transcription : String
  summary : String
  keywords : List String
  isLoading : Bool
  error : String
  micLevel : Nat
  isListening : Bool
  environmentStatus : EnvStatus
  reconnectAttempts : Nat
  lastActivity : Nat
  deriving DecidableEq

/-- The component's initial state (the `useState` initialisers). -/
def initState : AppState :=
  { isRecording := false
    transcription := ""
    summary := ""
    keywords := []
    isLoading := false
    error := ""
    micLevel := 0
    isListening := false
    environmentStatus := .quiet
    reconnectAttempts := 0
    lastActivity := 0 }

/-- One entry of a `SpeechRecognitionResultList`, keeping only the fields the
handler reads (`result.isFinal` and `result[0].transcript`). -/
structure Segment where
  isFinal : Bool
  transcript : String
  deriving DecidableEq

/-- A `SpeechRecognitionErrorEvent`. -/
structure ErrEvent where
  error : String
  message : String
  deriving DecidableEq

/-- The recognition events delivered to the component's handlers.  `result`
and `ended` carry the current clock value (`Date.now()` at handler entry). -/
inductive RecEvent
  | result (now : Nat) (segs : List Segment)
  | err (e : ErrEvent)
  | ended (now : Nat)
  deriving DecidableEq

/-- The state variables a recognition handler's closure captured when it was
created.  The handlers are installed in a `useEffect` with an empty
dependency array, so in the program these are the first render's values,
`cap0`, for the whole component lifetime; direct reads of `isRecording`,
`reconnectAttempts` and `lastActivity` inside `onerror`/`onend` see them
instead of the live state. -/
structure Captured where
  isRecording : Bool
  reconnectAttempts : Nat
  lastActivity : Nat
  deriving DecidableEq

/-- The capture the program actually installs: the initial render's values
(`isRecording = false`, `reconnectAttempts = 0`, the mount timestamp, taken
as the clock origin). -/
def cap0 : Captured :=
  { isRecording := false
    reconnectAttempts := 0
    lastActivity := 0 }

/-- The `finalTranscript` accumulator of `recognition.onresult`: the loop
appends `result[0].transcript + " "` for each finalized segment. -/
def finalConcat (segs : List Segment) : String :=
  segs.foldl (fun acc g => if g.isFinal then acc ++ g.transcript ++ " " else acc) ""

/-- The `interimTranscript` accumulator of `recognition.onresult`. -/
def interimConcat (segs : List Segment) : String :=
  segs.foldl (fun acc g => if g.isFinal then acc else acc ++ g.transcript) ""

/-- `prev.substring(0, prev.indexOf("[임시]"))` with the no-occurrence guard,
lifted to `String`. -/
def cutFirstMarkerS (t : String) : String :=
  String.mk (cutBeforeFirst markerL t.data)

/-- `prev.substring(0, prev.lastIndexOf("[최종]"))` with the no-occurrence
guard, lifted to `String`. -/
def cutLastFinalS (t : String) : String :=
  String.mk (cutBeforeLast "[최종]".data t.data)

/-- The `recognition.onresult` handler: updates the activity timestamp,
resets the reconnection counter, and folds the event's segments into the
transcript (interim branch first, as in the source). -/
def onresult (now : Nat) (segs : List Segment) (s : AppState) : AppState :=
  let s1 := { s with lastActivity := now, reconnectAttempts := 0 }
  let fin := finalConcat segs
  let intr := interimConcat segs
  if intr ≠ "" then
    { s1 with transcription := cutLastFinalS s.transcription ++ fin ++ "[임시] " ++ intr }
  else if fin ≠ "" then
    { s1 with transcription := cutFirstMarkerS s.transcription ++ fin }
  else s1

/-- Whether an error code is one of the transient ones retried by
`recognition.onerror`. -/
def transientErr (e : String) : Bool :=
  e = "network" || e = "audio-capture" || e = "aborted"

/-- The exponential-backoff delay of `recognition.onerror`:
`Math.min(1000 * Math.pow(2, reconnectAttempts), 10000)`. -/
def errDelay (n : Nat) : Nat := min (1000 * 2 ^ n) 10000

/-- The restart delay of `recognition.onend`:
`Math.min(500 + reconnectAttempts * 200, 2000)`. -/
def endDelay (n : Nat) : Nat := min (500 + n * 200) 2000

/-- The generic error message assembled by `recognition.onerror`
(`event.message || "알 수 없는 오류"` falls back on a falsy message). -/
def genericErrMsg (e : ErrEvent) : String :=
  "음성 인식 오류: " ++ e.error ++ " - " ++ (if e.message = "" then "알 수 없는 오류" else e.message)

/-- The retry status message of `recognition.onerror`. -/
def retryErrMsg (n : Nat) : String :=
  "연결 문제 발생, 재시도 중... (" ++ toString (n + 1) ++ "/5)"

/-- The `recognition.onerror` handler.  The second component is the delay of
the retry it schedules via `setTimeout`, when it schedules one (whether the
fired timeout actually restarts recognition is outside the handler; its
callback again reads the captured `isRecording`).  Every direct read of
`reconnectAttempts` — the `< 5` gate, the status message, the backoff
exponent — sees the closure-captured `cap.reconnectAttempts`; only the
functional update `setReconnectAttempts(prev => prev + 1)` touches the live
count. -/
def onerror (cap : Captured) (e : ErrEvent) (s : AppState) : AppState × Option Nat :=
  if transientErr e.error then
    if cap.reconnectAttempts < 5 then
      ({ s with reconnectAttempts := s.reconnectAttempts + 1
                error := retryErrMsg cap.reconnectAttempts },
       some (errDelay cap.reconnectAttempts))
    else
      ({ s with reconnectAttempts := s.reconnectAttempts + 1
                error := genericErrMsg e },
       none)
  else
    let s1 := { s with error := genericErrMsg e }
    if e.error = "not-allowed" || e.error = "service-not-allowed" then
      ({ s1 with isRecording := false }, none)
    else (s1, none)

/-- The `recognition.onend` handler, at clock value `now`.  Its reads of
`isRecording`, `lastActivity` (in `Date.now() - lastActivity`) and
`reconnectAttempts` all see the closure-captured values, so with the
program's capture `cap0` the whole `if (isRecording)` branch is dead.  The
second component is the delay of the restart it schedules, when it schedules
one. -/
def onend (cap : Captured) (now : Nat) (s : AppState) : AppState × Option Nat :=
  let s1 := { s with isListening := false }
  if cap.isRecording then
    if now - cap.lastActivity < 30000 ∧ cap.reconnectAttempts < 5 then
      (s1, some (endDelay cap.reconnectAttempts))
    else
      ({ s1 with error := "음성 인식이 중단되었습니다. 다시 시작해주세요."
                 isRecording := false },
       none)
  else (s1, none)

/-- One recognition event processed by the corresponding handler of the
program (whose capture is `cap0`). -/
def step (s : AppState) : RecEvent → AppState × Option Nat
  | .result now segs => (onresult now segs s, none)
  | .err e => onerror cap0 e s
  | .ended now => onend cap0 now s

/-- Run a sequence of recognition events. -/
def runTrace (s : AppState) : List RecEvent → AppState
  | [] => s
  | ev :: evs => runTrace (step s ev).1 evs

/-- Total number of retries scheduled along a trace (by the error handler or
by the end handler). -/
def countRetries (s : AppState) : List RecEvent → Nat
  | [] => 0
  | ev :: evs =>
    (if (step s ev).2.isSome then 1 else 0) + countRetries (step s ev).1 evs

/-- The `clearAll` click handler. -/
def clearAll (now : Nat) (s : AppState) : AppState :=
  { s with transcription := ""
           summary := ""
           keywords := []
           error := ""
           reconnectAttempts := 0
           lastActivity := now }

/-! ### The keyword extractor -/

/-- The Korean stop-word set of `extractKeywords`. -/
def stopWords : List String :=
  ["그", "이", "저", "것", "들", "의", "가", "을", "를", "에", "와", "과", "도",
   "는", "은", "이다", "있다", "없다", "하다", "되다", "이것", "저것", "그것",
   "여기", "저기", "거기", "이곳", "저곳", "그곳", "때문", "따라", "그래서",
   "그러나", "하지만", "그리고", "또한", "또는", "만약", "만일", "아니", "않",
   "못", "안", "임시", "최종", "결과", "내용", "발표", "음성", "인식", "요약",
   "텍스트"]

/-- The `cleanText` preprocessing of `extractKeywords`: remove provisional
runs, replace every character that is neither a word character, whitespace
nor Hangul by a space, collapse whitespace, trim. -/
def cleanTextOf (t : String) : String :=
  String.mk (trimWs (collapseWs ((removeProv t.data).map
    (fun c => if isWordChar c || isWs c || isHangul c then c else ' '))))

/-- `cleanText.split(/\s+/)` of `extractKeywords` (the clean text's
whitespace is already collapsed to isolated spaces). -/
def wordsOf (t : String) : List String :=
  (splitWhen isWs (cleanTextOf t).data).map String.mk

/-- `wordFreq[word] = (wordFreq[word] || 0) + 1` on an association list kept
in insertion order (the enumeration order of `Object.entries` for the
non-numeric keys arising here). -/
def bump : List (String × Nat) → String → List (String × Nat)
  | [], w => [(w, 1)]
  | (k, v) :: rest, w =>
    if k = w then (k, v + 1) :: rest else (k, v) :: bump rest w

/-- The `wordFreq` object of `extractKeywords`: frequencies of the tokens of
length at least 2 that are not stop-words. -/
def wordFreqOf (t : String) : List (String × Nat) :=
  (wordsOf t).foldl
    (fun m w => if 2 ≤ w.length ∧ stopWords.contains w = false then bump m w else m) []

/-- Descending order on the second (count/score) component, the order
computed by the `(a, b) => b - a` style comparators of the source. -/
def sndDesc (a b : String × Nat) : Prop := b.2 ≤ a.2

instance : DecidableRel sndDesc := fun a b => Nat.decLe b.2 a.2

instance : IsTotal (String × Nat) sndDesc :=
  ⟨fun a b => (Nat.le_total b.2 a.2).imp id id⟩

instance : IsTrans (String × Nat) sndDesc :=
  ⟨fun _ _ _ h1 h2 => Nat.le_trans h2 h1⟩

/-- `Object.entries(wordFreq).sort(([, a], [, b]) => b - a)`.  JavaScript
`Array.prototype.sort` is stable, and the stable sort for a total preorder is
unique, so insertion sort with the non-strict descending relation computes
it. -/
def sortedEntries (t : String) : List (String × Nat) :=
  List.insertionSort sndDesc (wordFreqOf t)

/-- The `extractKeywords` function of `app/page.tsx`. -/
def extractKeywords (t : String) : List String :=
  ((sortedEntries t).take 8).map Prod.fst

/-! ### summarizeText -/

/-- The `processedText` of `summarizeText`: provisional runs removed,
consecutive whitespace collapsed, trimmed. -/
def processText (t : String) : String :=
  String.mk (trimWs (collapseWs (removeProv t.data)))

/-- The `textToSummarize` passed to the model: the processed text, truncated
to its first 1000 characters plus `"..."` when longer than 1000. -/
def mkModelInput (p : String) : String :=
  if 1000 < p.length then String.mk (p.data.take 1000) ++ "..." else p

/-- The synchronous prefix of `summarizeText`, up to the model invocation:
guard on an all-whitespace transcript, guard on the summarizer not having
loaded, then preprocess, extract keywords and build the model input.  The
second component is the argument passed to the summarization model (`none`
when the handler returns without invoking it). -/
def summarizeStep (loaded : Bool) (s : AppState) : AppState × Option String :=
  if String.mk (trimWs s.transcription.data) = "" then
    ({ s with error := "요약할 텍스트가 없습니다." }, none)
  else if loaded = false then
    ({ s with error := "요약 모델이 아직 로딩되지 않았습니다." }, none)
  else
    let p := processText s.transcription
    ({ s with isLoading := true
              error := ""
              keywords := extractKeywords p },
     some (mkModelInput p))

/-! ### The extractive fallback summary -/

/-- `text.split(/[.!?]+/).filter(s => s.trim().length > 10)` (the character
level split only adds empty fragments, which the filter discards). -/
def sentencesOf (t : String) : List String :=
  ((splitWhen termChar t.data).map String.mk).filter
    (fun s => 10 < (String.mk (trimWs s.data)).length)

/-- `Math.ceil(n * 0.4)`.  The double closest to `0.4` exceeds `2/5` by
`0.2 * 2 ^ (-53)`, an error too small to carry `n * 0.4` across an integer
for any list length arising here, so the ceiling agrees with the exact
rational one. -/
def ceil04 (n : Nat) : Nat := (2 * n + 4) / 5

/-- Number of extracted keywords contained in a sentence. -/
def keywordHits (kws : List String) (s : String) : Nat :=
  (kws.filter (fun k => containsSub k.data s.data)).length

/-- The `scoredSentences` of `createExtractiveSummary`, with the score
`keywordCount + sentence.length / 100` scaled by 100 to the natural number
`100 * keywordCount + sentence.length` (the scaling preserves the comparator
order: distinct exact scores differ by at least `1/100`, far above the
floating-point rounding error). -/
def scoredSentences (t : String) : List (String × Nat) :=
  let kws := extractKeywords t
  (sentencesOf t).map
    (fun s => (String.mk (trimWs s.data), 100 * keywordHits kws s + s.length))

/-- The `topSentences` of `createExtractiveSummary`: stable-sort the scored
sentences by descending score, keep the first
`Math.max(2, Math.ceil(sentences.length * 0.4))`, project the trimmed
sentences. -/
def topSentences (t : String) : List String :=
  ((List.insertionSort sndDesc (scoredSentences t)).take
      (max 2 (ceil04 (sentencesOf t).length))).map Prod.fst

/-- The `createExtractiveSummary` fallback of `app/page.tsx`. -/
def createExtractiveSummary (t : String) : String :=
  if (sentencesOf t).length ≤ 3 then t
  else String.intercalate ". " (topSentences t) ++ "."

/-! ### Helper lemmas -/

lemma ne_empty_left (a b : String) (ha : a ≠ "") : a ++ b ≠ "" := by
  intro h
  apply ha
  have h2 := congrArg String.data h
  rw [String.data_append] at h2
  exact String.ext (List.append_eq_nil.mp h2).1

lemma ne_empty_right (a b : String) (hb : b ≠ "") : a ++ b ≠ "" := by
  intro h
  apply hb
  have h2 := congrArg String.data h
  rw [String.data_append] at h2
  exact String.ext (List.append_eq_nil.mp h2).2

/-! ### C1: the transcript keeps at most one provisional marker -/

/-- C1: the speech-recognition result handler violates the one-provisional-
marker invariant.  Starting from the empty transcript, two consecutive
interim-only result events leave two occurrences of `[임시]` in the
transcript: the interim branch strips the previous provisional suffix by
searching for `[최종]` — a marker nothing ever writes — instead of `[임시]`,
contradicting its own comment (`이전 임시 결과 제거하고 새로운 임시 결과
추가`). -/
theorem onresult_marker_duplication :
    (runTrace initState
        [RecEvent.result 0 [⟨false, "a"⟩], RecEvent.result 1 [⟨false, "b"⟩]]).transcription
      = "[임시] a[임시] b"
    ∧ ¬ occCount markerL "[임시] a[임시] b".data ≤ 1 := by
  decide

/-! ### C2: bounded reconnection -/

/-- C2: the reconnection bound is inoperative.  The error handler's
`reconnectAttempts < 5` gate reads the closure-captured initial count 0, so
six consecutive transient network errors each schedule a retry — the sixth
included, although the live count is then already past 5 — contradicting the
claim (and the handler's own comment `최대 5회 재시도`); and the end handler
reads the captured `isRecording = false`, so it never surfaces the session as
stopped (the recording flag and the error message are left untouched). -/
theorem stale_reconnect_bug :
    countRetries { initState with isRecording := true }
        (List.replicate 6 (RecEvent.err ⟨"network", ""⟩)) = 6
    ∧ (runTrace { initState with isRecording := true }
        (List.replicate 6 (RecEvent.err ⟨"network", ""⟩))).reconnectAttempts = 6
    ∧ (onerror cap0 ⟨"network", ""⟩
        { initState with isRecording := true, reconnectAttempts := 5 }).2 = some 1000
    ∧ (onend cap0 40000
        { initState with isRecording := true, reconnectAttempts := 5 }).1.isRecording = true
    ∧ (onend cap0 40000
        { initState with isRecording := true, reconnectAttempts := 5 }).1.error = "" := by
  decide

/-! ### C4: the retry delays -/

/-- C4: the backoff schedule is inoperative.  The backoff exponent reads the
closure-captured initial attempt count 0, so two consecutive transient
errors are both scheduled with delay 1000 ms, although after the first the
live attempt count is 1 and the claimed formula gives
`errDelay 1 = min (1000 * 2 ^ 1) 10000 = 2000`; and the end handler (captured
`isRecording = false`) never schedules a restart delay at all — contradicting
the claim and the code's own comment `지수 백오프로 재시도 간격 증가`. -/
theorem stale_backoff_bug :
    (onerror cap0 ⟨"network", ""⟩ { initState with isRecording := true }).2 = some 1000
    ∧ (onerror cap0 ⟨"network", ""⟩ { initState with isRecording := true }).1.reconnectAttempts = 1
    ∧ (onerror cap0 ⟨"network", ""⟩
        (onerror cap0 ⟨"network", ""⟩ { initState with isRecording := true }).1).2 = some 1000
    ∧ errDelay 1 = 2000
    ∧ (onend cap0 25000 { initState with isRecording := true }).2 = none := by
  decide

/-! ### C6: every error sets a user-visible message -/

/-- C6: whatever the error code and message — and whatever values the
handler's closure captured, so in particular for the program's capture
`cap0` — the error handler leaves a non-empty user-visible error message in
the state. -/
theorem onerror_sets_message (cap : Captured) (e : ErrEvent) (s : AppState) :
    (onerror cap e s).1.error ≠ "" := by
  have hgen : genericErrMsg e ≠ "" := by
    unfold genericErrMsg
    refine ne_empty_left _ _ (ne_empty_left _ _ (ne_empty_left _ _ ?_))
    decide
  have hretry : ∀ n, retryErrMsg n ≠ "" := by
    intro n
    unfold retryErrMsg
    refine ne_empty_left _ _ (ne_empty_left _ _ ?_)
    decide
  simp only [onerror]
  split
  · split
    · exact hretry _
    · exact hgen
  · split
    · exact hgen
    · exact hgen

/-! ### C7: clearAll resets the derived data and nothing else -/

/-- C7: `clearAll` empties the transcript, summary, keyword list and error
message and resets the reconnection counter while leaving the recording
flag, the listening flag, the microphone level and the environment status
untouched. -/
theorem clearAll_spec (now : Nat) (s : AppState) :
    (clearAll now s).transcription = ""
    ∧ (clearAll now s).summary = ""
    ∧ (clearAll now s).keywords = []
    ∧ (clearAll now s).error = ""
    ∧ (clearAll now s).reconnectAttempts = 0
    ∧ (clearAll now s).isRecording = s.isRecording
    ∧ (clearAll now s).isListening = s.isListening
    ∧ (clearAll now s).micLevel = s.micLevel
    ∧ (clearAll now s).environmentStatus = s.environmentStatus :=
  ⟨rfl, rfl, rfl, rfl, rfl, rfl, rfl, rfl, rfl⟩

/-! ### C5: finalized-only events append and drop the provisional suffix -/

lemma interim_all_final (segs : List Segment)
    (h : ∀ g ∈ segs, g.isFinal = true) : interimConcat segs = "" := by
  have aux : ∀ (l : List Segment) (acc : String), (∀ g ∈ l, g.isFinal = true) →
      l.foldl (fun acc g => if g.isFinal then acc else acc ++ g.transcript) acc = acc := by
    intro l
    induction l with
    | nil => intro acc _; rfl
    | cons g gs ih =>
      intro acc hl
      rw [List.foldl_cons, hl g (List.mem_cons_self g gs), if_pos rfl]
      exact ih acc (fun x hx => hl x (List.mem_cons_of_mem g hx))
  exact aux segs "" h

lemma final_all_final (segs : List Segment)
    (h : ∀ g ∈ segs, g.isFinal = true) :
    finalConcat segs = segs.foldr (fun g r => g.transcript ++ " " ++ r) "" := by
  have aux : ∀ (l : List Segment) (acc : String), (∀ g ∈ l, g.isFinal = true) →
      l.foldl (fun acc g => if g.isFinal then acc ++ g.transcript ++ " " else acc) acc
        = acc ++ l.foldr (fun g r => g.transcript ++ " " ++ r) "" := by
    intro l
    induction l with
    | nil => intro acc _; exact (String.append_empty acc).symm
    | cons g gs ih =>
      intro acc hl
      rw [List.foldl_cons, hl g (List.mem_cons_self g gs), if_pos rfl,
        ih (acc ++ g.transcript ++ " ") (fun x hx => hl x (List.mem_cons_of_mem g hx)),
        List.foldr_cons, String.append_assoc, String.append_assoc,
        String.append_assoc]
  have := aux segs "" h
  rwa [String.empty_append] at this

lemma final_ne_empty (g : Segment) (gs : List Segment)
    (h : ∀ x ∈ g :: gs, x.isFinal = true) : finalConcat (g :: gs) ≠ "" := by
  rw [final_all_final _ h, List.foldr_cons]
  exact ne_empty_left _ _ (ne_empty_right _ _ (by decide))

/-- C5 counterexample: a result event with no segments at all (vacuously
"all finalized") leaves the transcript untouched instead of truncating it at
the provisional marker. -/
theorem onresult_empty_event_cex :
    (onresult 0 [] { initState with transcription := "[임시] a" }).transcription
      ≠ cutFirstMarkerS "[임시] a"
        ++ ([] : List Segment).foldr (fun g r => g.transcript ++ " " ++ r) "" := by
  decide

/-- C5 (amended): for every result event with at least one segment, all of
them finalized, the new transcript is the old transcript truncated at the
first occurrence of `[임시]` (the whole old transcript when the marker is
absent) followed by the finalized segments' texts, each followed by a single
space. -/
theorem onresult_final_replaces (now : Nat) (segs : List Segment) (s : AppState)
    (hne : segs ≠ []) (hfin : ∀ g ∈ segs, g.isFinal = true) :
    (onresult now segs s).transcription
      = cutFirstMarkerS s.transcription
        ++ segs.foldr (fun g r => g.transcript ++ " " ++ r) "" := by
  obtain ⟨g, gs, rfl⟩ := List.exists_cons_of_ne_nil hne
  have hintr := interim_all_final _ hfin
  have hfne := final_ne_empty g gs hfin
  simp only [onresult, hintr, ne_eq, not_true_eq_false, if_false, hfne,
    not_false_eq_true, if_true]
  rw [final_all_final _ hfin]

/-- Witness for `onresult_final_replaces` at a concrete event and state. -/
theorem onresult_final_witness :
    (onresult 1 [⟨true, "안녕"⟩] { initState with transcription := "x [임시] y" }).transcription
      = cutFirstMarkerS ({ initState with transcription := "x [임시] y" } : AppState).transcription
        ++ ([⟨true, "안녕"⟩] : List Segment).foldr (fun g r => g.transcript ++ " " ++ r) "" :=
  onresult_final_replaces 1 _ _ (by decide) (by decide)

/-! ### C3: the keyword extractor -/

lemma bump_fst_mem (w x : String) : ∀ m : List (String × Nat),
    (x ∈ (bump m w).map Prod.fst ↔ x ∈ m.map Prod.fst ∨ x = w) := by
  intro m
  induction m with
  | nil => simp [bump]
  | cons p rest ih =>
    obtain ⟨k, v⟩ := p
    by_cases hk : k = w
    · subst hk
      simp [bump]
      tauto
    · simp only [bump, if_neg hk, List.map_cons, List.mem_cons, ih]
      tauto

lemma bump_fst_nodup (w : String) : ∀ m : List (String × Nat),
    (m.map Prod.fst).Nodup → ((bump m w).map Prod.fst).Nodup := by
  intro m
  induction m with
  | nil => intro _; simp [bump]
  | cons p rest ih =>
    obtain ⟨k, v⟩ := p
    intro hnd
    rw [List.map_cons, List.nodup_cons] at hnd
    by_cases hk : k = w
    · subst hk
      simp only [bump, eq_self_iff_true, if_true, List.map_cons, List.nodup_cons]
      exact hnd
    · simp only [bump, if_neg hk, List.map_cons, List.nodup_cons]
      refine ⟨fun hmem => ?_, ih hnd.2⟩
      rcases (bump_fst_mem w k rest).mp hmem with h | h
      · exact hnd.1 h
      · exact hk h

lemma bump_fst_prop (Q : String → Prop) (w : String) (hw : Q w) :
    ∀ m : List (String × Nat), (∀ p ∈ m, Q p.1) → ∀ p ∈ bump m w, Q p.1 := by
  intro m
  induction m with
  | nil =>
    intro _ p hp
    simp only [bump, List.mem_singleton] at hp
    subst hp
    exact hw
  | cons q rest ih =>
    obtain ⟨k, v⟩ := q
    intro hall p hp
    by_cases hk : k = w
    · subst hk
      simp only [bump, eq_self_iff_true, if_true, List.mem_cons] at hp
      rcases hp with rfl | hp
      · exact hall (k, v) (List.mem_cons_self _ _)
      · exact hall p (List.mem_cons_of_mem _ hp)
    · simp only [bump, if_neg hk, List.mem_cons] at hp
      rcases hp with rfl | hp
      · exact hall (k, v) (List.mem_cons_self _ _)
      · exact ih (fun q hq => hall q (List.mem_cons_of_mem _ hq)) p hp

lemma wordFreq_fold_inv : ∀ (ws : List String) (m : List (String × Nat)),
    (m.map Prod.fst).Nodup →
    (∀ p ∈ m, 2 ≤ p.1.length ∧ stopWords.contains p.1 = false) →
    (((ws.foldl (fun m w =>
        if 2 ≤ w.length ∧ stopWords.contains w = false then bump m w else m) m)).map
          Prod.fst).Nodup
    ∧ ∀ p ∈ ws.foldl (fun m w =>
        if 2 ≤ w.length ∧ stopWords.contains w = false then bump m w else m) m,
        2 ≤ p.1.length ∧ stopWords.contains p.1 = false := by
  intro ws
  induction ws with
  | nil => intro m h1 h2; exact ⟨h1, h2⟩
  | cons w ws ih =>
    intro m h1 h2
    rw [List.foldl_cons]
    by_cases hw : 2 ≤ w.length ∧ stopWords.contains w = false
    · rw [if_pos hw]
      exact ih (bump m w) (bump_fst_nodup w m h1)
        (bump_fst_prop (fun x => 2 ≤ x.length ∧ stopWords.contains x = false) w hw m h2)
    · rw [if_neg hw]
      exact ih m h1 h2

/-- C3: the keyword extractor returns the tokens of the cleaned text sorted
by descending frequency, truncated to the first 8: the result is duplicate
free, has length at most 8, is the 8-element prefix of the frequency entries
sorted in descending count order, and every returned token has length at
least 2 and is not a stop-word. -/
theorem extractKeywords_spec (t : String) :
    (extractKeywords t).Nodup
    ∧ (extractKeywords t).length ≤ 8
    ∧ List.Sorted sndDesc (sortedEntries t)
    ∧ extractKeywords t = ((sortedEntries t).take 8).map Prod.fst
    ∧ ∀ w ∈ extractKeywords t, 2 ≤ w.length ∧ stopWords.contains w = false := by
  have hinv := wordFreq_fold_inv (wordsOf t) [] (by simp) (by simp)
  have hperm : List.Perm (sortedEntries t) (wordFreqOf t) :=
    List.perm_insertionSort sndDesc _
  have hkeys : ((sortedEntries t).map Prod.fst).Nodup :=
    ((hperm.map Prod.fst).nodup_iff).mpr hinv.1
  refine ⟨?_, ?_, ?_, rfl, ?_⟩
  · have : extractKeywords t = ((sortedEntries t).map Prod.fst).take 8 :=
      List.map_take Prod.fst (sortedEntries t) 8
    rw [this]
    exact hkeys.sublist (List.take_sublist 8 _)
  · calc (extractKeywords t).length
        = ((sortedEntries t).take 8).length := List.length_map _ _
      _ ≤ 8 := by
          rw [List.length_take]
          exact min_le_left _ _
  · exact List.sorted_insertionSort sndDesc _
  · intro w hw
    obtain ⟨p, hp, rfl⟩ := List.mem_map.mp hw
    exact hinv.2 p (hperm.subset (List.take_subset 8 _ hp))

/-- Witness for `extractKeywords_spec` at a concrete text and keyword. -/
theorem extractKeywords_witness :
    2 ≤ ("사과" : String).length
    ∧ stopWords.contains "사과" = false :=
  (extractKeywords_spec "사과 사과 바나나 포도, 그리고 이").2.2.2.2 "사과" (by decide)

/-! ### C8: the summarize guards fail fast and leave the state alone -/

/-- C8: when the transcript is empty or all-whitespace, or the summarizer
has not finished loading, `summarizeText` sets a non-empty error message,
does not invoke the model, and leaves the summary, the keyword list and the
transcript unchanged. -/
theorem summarize_guard_spec (s : AppState) (loaded : Bool)
    (h : String.mk (trimWs s.transcription.data) = "" ∨ loaded = false) :
    (summarizeStep loaded s).2 = none
    ∧ (summarizeStep loaded s).1.error ≠ ""
    ∧ (summarizeStep loaded s).1.summary = s.summary
    ∧ (summarizeStep loaded s).1.keywords = s.keywords
    ∧ (summarizeStep loaded s).1.transcription = s.transcription := by
  by_cases h1 : String.mk (trimWs s.transcription.data) = ""
  · have hs : summarizeStep loaded s
        = ({ s with error := "요약할 텍스트가 없습니다." }, none) := by
      simp only [summarizeStep, if_pos h1]
    rw [hs]
    refine ⟨rfl, ?_, rfl, rfl, rfl⟩
    show ("요약할 텍스트가 없습니다." : String) ≠ ""
    decide
  · have h2 : loaded = false := h.resolve_left h1
    have hs : summarizeStep loaded s
        = ({ s with error := "요약 모델이 아직 로딩되지 않았습니다." }, none) := by
      simp only [summarizeStep, if_neg h1, if_pos h2]
    rw [hs]
    refine ⟨rfl, ?_, rfl, rfl, rfl⟩
    show ("요약 모델이 아직 로딩되지 않았습니다." : String) ≠ ""
    decide

/-- Witness for `summarize_guard_spec` on the empty transcript. -/
theorem summarize_guard_witness :
    (summarizeStep true initState).2 = none
    ∧ (summarizeStep true initState).1.error ≠ ""
    ∧ (summarizeStep true initState).1.summary = initState.summary
    ∧ (summarizeStep true initState).1.keywords = initState.keywords
    ∧ (summarizeStep true initState).1.transcription = initState.transcription :=
  summarize_guard_spec initState true (Or.inl (by decide))

/-! ### C9: the model input is the preprocessed, truncated transcript -/

/-- C9: whenever `summarizeText` invokes the model, the argument is the
transcript with provisional runs removed, whitespace collapsed and trimmed,
truncated to its first 1000 characters plus `"..."` when longer than 1000 —
in particular the model input never exceeds 1003 characters. -/
theorem summarize_input_spec (s : AppState) (loaded : Bool) (inp : String)
    (h : (summarizeStep loaded s).2 = some inp) :
    inp = mkModelInput (processText s.transcription) ∧ inp.length ≤ 1003 := by
  by_cases h1 : String.mk (trimWs s.transcription.data) = ""
  · simp [summarizeStep, h1] at h
  · by_cases h2 : loaded = false
    · simp [summarizeStep, h1, h2] at h
    · have hinp : inp = mkModelInput (processText s.transcription) := by
        simp [summarizeStep, h1, h2] at h
        exact h.symm
      refine ⟨hinp, ?_⟩
      rw [hinp]
      unfold mkModelInput
      have hd : (processText s.transcription).length
          = (processText s.transcription).data.length := rfl
      by_cases h3 : 1000 < (processText s.transcription).length
      · rw [if_pos h3]
        rw [String.length_append, String.length_mk, List.length_take]
        have h4 : ("..." : String).length = 3 := rfl
        rw [h4]
        omega
      · rw [if_neg h3]
        omega

/-- Witness for `summarize_input_spec` at a concrete short transcript. -/
theorem summarize_input_witness :
    ("안녕하세요" : String)
        = mkModelInput (processText
            ({ initState with transcription := "안녕하세요" } : AppState).transcription)
    ∧ ("안녕하세요" : String).length ≤ 1003 :=
  summarize_input_spec { initState with transcription := "안녕하세요" } true
    "안녕하세요" (by decide)

/-! ### C10: the extractive fallback summary -/

/-- C10: when the input splits into at most 3 fragments of trimmed length
greater than 10, `createExtractiveSummary` is the identity; on longer inputs
it returns the period-join of the top-scored trimmed sentences, at least 2 of
them and at least `ceil(0.4 * n)` of the `n` sentences, chosen in descending
score order. -/
theorem extractive_summary_spec (t : String) :
    ((sentencesOf t).length ≤ 3 → createExtractiveSummary t = t)
    ∧ (3 < (sentencesOf t).length →
        createExtractiveSummary t = String.intercalate ". " (topSentences t) ++ "."
        ∧ 2 ≤ (topSentences t).length
        ∧ ceil04 (sentencesOf t).length ≤ (topSentences t).length
        ∧ List.Sorted sndDesc (List.insertionSort sndDesc (scoredSentences t))
        ∧ ∀ c ∈ topSentences t, ∃ u ∈ sentencesOf t, c = String.mk (trimWs u.data)) := by
  constructor
  · intro h
    simp [createExtractiveSummary, h]
  · intro h
    have hn : ¬ (sentencesOf t).length ≤ 3 := by omega
    have hsl : (scoredSentences t).length = (sentencesOf t).length := by
      simp [scoredSentences]
    have hlen : (topSentences t).length = max 2 (ceil04 (sentencesOf t).length) := by
      unfold topSentences
      rw [List.length_map, List.length_take, List.length_insertionSort, hsl]
      have hb : max 2 (ceil04 (sentencesOf t).length) ≤ (sentencesOf t).length := by
        unfold ceil04
        omega
      omega
    refine ⟨?_, ?_, ?_, ?_, ?_⟩
    · simp [createExtractiveSummary, hn]
    · rw [hlen]
      omega
    · rw [hlen]
      omega
    · exact List.sorted_insertionSort sndDesc _
    · intro c hc
      unfold topSentences at hc
      obtain ⟨p, hp, rfl⟩ := List.mem_map.mp hc
      have hp2 : p ∈ List.insertionSort sndDesc (scoredSentences t) :=
        List.take_subset _ _ hp
      have hp3 : p ∈ scoredSentences t := by
        rw [List.mem_insertionSort] at hp2
        exact hp2
      simp only [scoredSentences] at hp3
      obtain ⟨u, hu, hup⟩ := List.mem_map.mp hp3
      exact ⟨u, hu, by rw [← hup]⟩

/-- Witness for `extractive_summary_spec`: identity on a short text and the
selection bound on a four-sentence text. -/
theorem extractive_summary_witness :
    createExtractiveSummary "짧은 문장." = "짧은 문장."
    ∧ 2 ≤ (topSentences
        "가나다라 마바사아 하나.가나다라 마바사아 둘물!가나다라 마바사아 셋둘?가나다라 마바사아 넷셋.").length :=
  ⟨(extractive_summary_spec "짧은 문장.").1 (by decide),
   ((extractive_summary_spec
      "가나다라 마바사아 하나.가나다라 마바사아 둘물!가나다라 마바사아 셋둘?가나다라 마바사아 넷셋.").2
      (by decide)).2.1⟩

end ConfSpeech
